import Mathlib

/-!
Verification development for the text-summarizer web API
(source: `src/project/app/api/summaries.py`).

The request handlers in `summaries.py` are embedded as pure Lean
functions.  The persistence collaborator (`app.api.crud`), the pydantic
and tortoise schemas (`app.models.*`) and the framework-level route
validation are not part of the source tree; they are modelled from the
specification's description of their contracts, each such definition
carrying a doc comment that says so.
-/

/-- Modelled from the spec: the Summary entity persisted by the
persistence collaborator (`app.models.tortoise.SummarySchema` is not in
the source tree).  Fields per spec section 3: `id` (integer, assigned on
creation), `url` (string), `summary` (string, empty until generation or
update), `created_at` (timestamp, set once at creation; modelled as the
value of the creation counter at insertion time). -/
structure SummaryRecord where
  id : Int
  url : String
  summary : String
  created_at : Int
deriving DecidableEq, Repr

/-- Modelled from the spec: `SummaryPayloadSchema` (`app.models.pydantic`
is not in the source tree): the create request body carries `url`,
`summarizer_specifier` and `sentence_count`. -/
structure SummaryPayloadSchema where
  url : String
  summarizer_specifier : String
  sentence_count : Int
deriving DecidableEq, Repr

/-- Modelled from the spec: `SummaryUpdatePayloadSchema`: the update
request body carries the new `url` and the new `summary` text. -/
structure SummaryUpdatePayloadSchema where
  url : String
  summary : String
deriving DecidableEq, Repr

/-- The create response schema (`SummaryResponseSchema`), as constructed
literally in `create_summary`: it echoes `url`, `summarizer_specifier`
and `sentence_count` and carries the assigned `id`.  It has no summary
text field. -/
structure SummaryResponseSchema where
  url : String
  id : Int
  summarizer_specifier : String
  sentence_count : Int
deriving DecidableEq, Repr

/-- Modelled from the spec: the state of the persistence collaborator.
`records` is the stored sequence of Summary records (order chosen by the
collaborator, modelled as insertion order); `nextId` is the counter from
which freshly assigned ids are drawn. -/
structure Storage where
  records : List SummaryRecord
  nextId : Int
deriving DecidableEq, Repr

/-- The empty persistence state: no records, ids assigned from 1. -/
def initialStorage : Storage := { records := [], nextId := 1 }

/-- Modelled from the spec: a unit of deferred background work handed to
the hosting runtime.  `create_summary` schedules
`generate_summary(summary_id, str(payload.url), payload.summarizer_specifier,
int(payload.sentence_count))`; the summarization collaborator itself is
external and is never executed by the handlers. -/
inductive BackgroundTask where
  | generate_summary (summary_id : Int) (url : String)
      (summarizer_specifier : String) (sentence_count : Int)
deriving DecidableEq, Repr

/-- The two client-error conditions of the API layer:
`summaryNotFound` models raising `SummaryNotFoundException` (mapped to
404), `validationError` models the framework rejecting a malformed path
parameter (mapped to 422) before the handler runs. -/
inductive ApiError where
  | validationError
  | summaryNotFound
deriving DecidableEq, Repr

/-- Modelled from the spec: the HTTP status code each error condition is
surfaced as (422-class validation error; 404 Not-Found). -/
def ApiError.statusCode : ApiError → Nat
  | .validationError => 422
  | .summaryNotFound => 404

namespace crud

/-- Modelled from the spec: persistence `insert(url) -> id`
(`crud.post`): inserts a new record with the given url and empty summary
text and returns the newly assigned id, drawn from the counter. -/
def post (payload : SummaryPayloadSchema) (st : Storage) : Int × Storage :=
  (st.nextId,
   { records := st.records ++
       [{ id := st.nextId, url := payload.url, summary := "",
          created_at := st.nextId }],
     nextId := st.nextId + 1 })

/-- Modelled from the spec: persistence `find(id) -> record | absent`
(`crud.get`): looks the record up by id. -/
def get (id : Int) (st : Storage) : Option SummaryRecord :=
  st.records.find? (fun r => r.id == id)

/-- Modelled from the spec: persistence `find_all() -> sequence`
(`crud.get_all`): every stored record, no pagination, filtering or
limit. -/
def get_all (st : Storage) : List SummaryRecord :=
  st.records

/-- Modelled from the spec: persistence
`update(id, url, summary) -> record | absent` (`crud.put`): when the id
is present, overwrites both the `url` and `summary` fields of that
record wholesale and returns the updated record; when absent, changes
nothing and reports absence. -/
def put (id : Int) (payload : SummaryUpdatePayloadSchema) (st : Storage) :
    Option SummaryRecord × Storage :=
  match st.records.find? (fun r => r.id == id) with
  | none => (none, st)
  | some r =>
    let r' : SummaryRecord :=
      { r with url := payload.url, summary := payload.summary }
    (some r',
     { st with records :=
         st.records.map (fun q => if q.id == id then r' else q) })

/-- Modelled from the spec: persistence `delete(id) -> bool`
(`crud.delete`): removes the record with the given id and reports
whether one was present. -/
def delete (id : Int) (st : Storage) : Bool × Storage :=
  ((st.records.find? (fun r => r.id == id)).isSome,
   { st with records := st.records.filter (fun r => !(r.id == id)) })

end crud

/-- Handler `create_summary` (`summaries.py` lines 19-52): calls
`crud.post` to insert the record and obtain `summary_id`, appends one
`generate_summary` task to the background-task collection, and returns a
`SummaryResponseSchema` echoing the payload together with the assigned
id.  The scheduled task is not executed. -/
def create_summary (payload : SummaryPayloadSchema)
    (background_tasks : List BackgroundTask) (st : Storage) :
    SummaryResponseSchema × List BackgroundTask × Storage :=
  let res := crud.post payload st
  let summary_id := res.1
  let st1 := res.2
  let tasks := background_tasks ++
    [BackgroundTask.generate_summary summary_id payload.url
       payload.summarizer_specifier payload.sentence_count]
  let response : SummaryResponseSchema :=
    { url := payload.url, id := summary_id,
      summarizer_specifier := payload.summarizer_specifier,
      sentence_count := payload.sentence_count }
  (response, tasks, st1)

/-- Handler `read_summary` (`summaries.py` lines 56-79): looks the
record up with `crud.get` and raises `SummaryNotFoundException` when it
is absent, otherwise returns the record. -/
def read_summary (id : Int) (st : Storage) : Except ApiError SummaryRecord :=
  match crud.get id st with
  | none => .error .summaryNotFound
  | some summary => .ok summary

/-- Handler `read_all_summaries` (`summaries.py` lines 83-92): returns
`crud.get_all()`. -/
def read_all_summaries (st : Storage) : List SummaryRecord :=
  crud.get_all st

/-- Handler `remove_summary` (`summaries.py` lines 96-124) made generic
in the persistence delete operation it calls: it looks the record up
with `crud.get`, raises `SummaryNotFoundException` when absent,
otherwise calls the delete operation, discards the Bool it reports, and
returns the record fetched before the deletion. -/
def remove_summary_gen (del : Int → Storage → Bool × Storage)
    (id : Int) (st : Storage) : Except ApiError SummaryRecord × Storage :=
  match crud.get id st with
  | none => (.error .summaryNotFound, st)
  | some summary => (.ok summary, (del id st).2)

/-- Handler `remove_summary` with the delete operation instantiated to
the persistence collaborator's `crud.delete`. -/
def remove_summary (id : Int) (st : Storage) :
    Except ApiError SummaryRecord × Storage :=
  remove_summary_gen crud.delete id st

/-- Handler `update_summary` (`summaries.py` lines 128-156): calls
`crud.put` and raises `SummaryNotFoundException` when it reports
absence, otherwise returns the updated record. -/
def update_summary (id : Int) (payload : SummaryUpdatePayloadSchema)
    (st : Storage) : Except ApiError SummaryRecord × Storage :=
  let res := crud.put id payload st
  match res.1 with
  | none => (.error .summaryNotFound, res.2)
  | some summary => (.ok summary, res.2)

/-- Modelled from the spec: the framework-level route for
`GET /summaries/{id}/`.  The path parameter is declared
`Path(..., gt=0)` (`summaries.py` line 56); a non-positive id is
rejected as a validation error before the handler (and hence the
persistence layer) is reached. -/
def route_read_summary (id : Int) (st : Storage) :
    Except ApiError SummaryRecord :=
  if 0 < id then read_summary id st else .error .validationError

/-- Modelled from the spec: the framework-level route for
`DELETE /summaries/{id}/` with the `Path(..., gt=0)` constraint of
`summaries.py` line 97. -/
def route_remove_summary (id : Int) (st : Storage) :
    Except ApiError SummaryRecord × Storage :=
  if 0 < id then remove_summary id st else (.error .validationError, st)

/-- Modelled from the spec: the framework-level route for
`PUT /summaries/{id}/` with the `Path(..., gt=0)` constraint of
`summaries.py` line 129. -/
def route_update_summary (id : Int) (payload : SummaryUpdatePayloadSchema)
    (st : Storage) : Except ApiError SummaryRecord × Storage :=
  if 0 < id then update_summary id payload st
  else (.error .validationError, st)

/-- Well-formedness of a persistence state: every stored id is below the
assignment counter, and stored ids are pairwise distinct. -/
def WF (st : Storage) : Prop :=
  (∀ r ∈ st.records, r.id < st.nextId) ∧
    st.records.Pairwise (fun a b => a.id ≠ b.id)

instance (st : Storage) : Decidable (WF st) := by
  unfold WF; infer_instance

/-- A concrete record used by witnesses. -/
def recW : SummaryRecord :=
  { id := 1, url := "https://example.com", summary := "", created_at := 1 }

/-- A concrete one-record storage state used by witnesses. -/
def stW : Storage :=
  { records := [recW], nextId := 2 }

/-- A concrete record agreeing with `recW` on `id` and `url` but with a
populated summary text, used to inspect the delete response body. -/
def recB : SummaryRecord :=
  { id := 1, url := "https://example.com", summary := "generated text",
    created_at := 1 }

/-- A concrete one-record storage state holding `recB`. -/
def stB : Storage :=
  { records := [recB], nextId := 2 }

/-- Modelled from the spec: one client request against the API surface.
Get and GetAll are read-only; Update and Delete go through the validated
routes. -/
inductive Op where
  | create (payload : SummaryPayloadSchema)
  | get (id : Int)
  | getAll
  | update (id : Int) (payload : SummaryUpdatePayloadSchema)
  | delete (id : Int)

/-- The storage state after serving one request. -/
def applyOp (st : Storage) : Op → Storage
  | .create p => (create_summary p [] st).2.2
  | .get _ => st
  | .getAll => st
  | .update id p => (route_update_summary id p st).2
  | .delete id => (route_remove_summary id st).2

/-- The storage state after serving a sequence of requests. -/
def runOps (st : Storage) : List Op → Storage
  | [] => st
  | op :: ops => runOps (applyOp st op) ops

/-- The number of create requests in a trace. -/
def numCreates : List Op → Nat
  | [] => 0
  | Op.create _ :: ops => numCreates ops + 1
  | _ :: ops => numCreates ops

/-- The number of delete requests of a trace that removed a record when
served: those whose id passed validation and matched a stored record. -/
def numDeletes : Storage → List Op → Nat
  | _, [] => 0
  | st, op :: ops =>
    (match op with
     | Op.delete id => if 0 < id ∧ (crud.get id st).isSome then 1 else 0
     | _ => 0) + numDeletes (applyOp st op) ops

/-- The ids assigned by the create requests of a trace, in order. -/
def assignedIds : Storage → List Op → List Int
  | _, [] => []
  | st, op :: ops =>
    (match op with
     | Op.create _ => [st.nextId]
     | _ => []) ++ assignedIds (applyOp st op) ops

/-- A concrete create payload used by witnesses. -/
def payloadW : SummaryPayloadSchema :=
  { url := "https://example.com", summarizer_specifier := "default",
    sentence_count := 3 }

/-- A concrete one-create trace used by witnesses. -/
def opsW : List Op := [Op.create payloadW]

lemma find?_id_eq_none_iff (l : List SummaryRecord) (id : Int) :
    l.find? (fun r => r.id == id) = none ↔ ∀ r ∈ l, r.id ≠ id := by
  rw [List.find?_eq_none]
  constructor
  · intro h r hr
    have := h r hr
    simpa using this
  · intro h r hr
    simpa using h r hr

lemma find?_id_unique {l : List SummaryRecord} {r : SummaryRecord} {id : Int}
    (hpw : l.Pairwise (fun a b => a.id ≠ b.id))
    (hmem : r ∈ l) (hid : r.id = id) :
    l.find? (fun q => q.id == id) = some r := by
  induction l with
  | nil => cases hmem
  | cons a l ih =>
    rcases List.pairwise_cons.mp hpw with ⟨ha, hl⟩
    rcases List.mem_cons.mp hmem with h | h
    · subst h
      simp [List.find?, hid]
    · have hne : a.id ≠ id := by
        intro hcontra
        exact ha r h (hcontra.trans hid.symm)
      simp only [List.find?]
      rw [show (a.id == id) = false from beq_eq_false_iff_ne.mpr hne]
      exact ih hl h

lemma update_summary_snd (id : Int) (p : SummaryUpdatePayloadSchema)
    (st : Storage) : (update_summary id p st).2 = (crud.put id p st).2 := by
  cases hp : (crud.put id p st).1 <;> simp [update_summary, hp]

lemma put_snd_ids (id : Int) (p : SummaryUpdatePayloadSchema)
    (st : Storage) :
    ((crud.put id p st).2).records.map (fun r => r.id) =
      st.records.map (fun r => r.id) ∧
    ((crud.put id p st).2).nextId = st.nextId := by
  cases hf : st.records.find? (fun r => r.id == id) with
  | none => simp [crud.put, hf]
  | some r =>
    have hrid : r.id = id := by simpa using List.find?_some hf
    refine ⟨?_, by simp [crud.put, hf]⟩
    simp only [crud.put, hf, List.map_map]
    apply List.map_congr_left
    intro q hq
    by_cases hqi : q.id = id
    · simp [Function.comp, beq_iff_eq.mpr hqi, hrid, hqi]
    · simp [Function.comp, beq_eq_false_iff_ne.mpr hqi]

lemma wf_create (p : SummaryPayloadSchema) (st : Storage) (h : WF st) :
    WF ((create_summary p [] st).2.2) := by
  obtain ⟨hb, hp⟩ := h
  constructor
  · intro r hr
    simp only [create_summary, crud.post] at hr ⊢
    rcases List.mem_append.mp hr with h1 | h1
    · have := hb r h1
      omega
    · simp only [List.mem_singleton] at h1
      subst h1
      simp
  · simp only [create_summary, crud.post]
    rw [List.pairwise_append]
    refine ⟨hp, by simp, ?_⟩
    intro a ha b hb'
    simp only [List.mem_singleton] at hb'
    subst hb'
    have := hb a ha
    simp only []
    omega

lemma wf_applyOp (st : Storage) (op : Op) (h : WF st) : WF (applyOp st op) := by
  cases op with
  | create p => exact wf_create p st h
  | get id => exact h
  | getAll => exact h
  | update id p =>
    by_cases hid : 0 < id
    · have heq : applyOp st (Op.update id p) = (crud.put id p st).2 := by
        simp [applyOp, route_update_summary, hid, update_summary_snd]
      rw [heq]
      obtain ⟨hmap, hnext⟩ := put_snd_ids id p st
      obtain ⟨hb, hp⟩ := h
      constructor
      · intro r hr
        have hm : r.id ∈ ((crud.put id p st).2).records.map (fun r => r.id) :=
          List.mem_map_of_mem _ hr
        rw [hmap] at hm
        rcases List.mem_map.mp hm with ⟨q, hq, hqid⟩
        rw [hnext, ← hqid]
        exact hb q hq
      · have h1 : (st.records.map (fun r => r.id)).Pairwise (fun a b => a ≠ b) :=
          List.pairwise_map.mpr hp
        rw [← hmap] at h1
        exact List.pairwise_map.mp h1
    · simpa [applyOp, route_update_summary, hid] using h
  | delete id =>
    by_cases hid : 0 < id
    · cases hg : crud.get id st with
      | none =>
        have heq : applyOp st (Op.delete id) = st := by
          simp [applyOp, route_remove_summary, hid, remove_summary,
            remove_summary_gen, hg]
        rw [heq]
        exact h
      | some s =>
        have heq : applyOp st (Op.delete id) = (crud.delete id st).2 := by
          simp [applyOp, route_remove_summary, hid, remove_summary,
            remove_summary_gen, hg]
        rw [heq]
        obtain ⟨hb, hp⟩ := h
        constructor
        · intro r hr
          simp only [crud.delete] at hr ⊢
          exact hb r (List.mem_of_mem_filter hr)
        · simp only [crud.delete]
          exact hp.sublist (List.filter_sublist _)
    · simpa [applyOp, route_remove_summary, hid] using h

lemma length_filter_ne_id (l : List SummaryRecord) (id : Int)
    (hpw : l.Pairwise (fun a b => a.id ≠ b.id)) :
    (l.filter (fun r => !(r.id == id))).length +
      (if (l.find? (fun r => r.id == id)).isSome then 1 else 0) =
      l.length := by
  induction l with
  | nil => simp
  | cons a l ih =>
    rcases List.pairwise_cons.mp hpw with ⟨ha, hl⟩
    by_cases hid : a.id = id
    · have hbeq : (a.id == id) = true := beq_iff_eq.mpr hid
      have hfl : l.filter (fun r => !(r.id == id)) = l := by
        apply List.filter_eq_self.mpr
        intro r hr
        have hne : r.id ≠ id := fun hc => ha r hr (by rw [hid, hc])
        simp [beq_eq_false_iff_ne.mpr hne]
      simp [hbeq, hfl]
    · have hbeq : (a.id == id) = false := beq_eq_false_iff_ne.mpr hid
      have := ih hl
      simp only [List.filter_cons, List.find?_cons, hbeq, Bool.not_false,
        if_true, List.length_cons]
      simp only [hbeq] at this ⊢
      omega

lemma runOps_records_length (ops : List Op) (st : Storage) (h : WF st) :
    (runOps st ops).records.length + numDeletes st ops =
      st.records.length + numCreates ops := by
  induction ops generalizing st with
  | nil => simp [runOps, numDeletes, numCreates]
  | cons op ops ih =>
    have IH := ih (applyOp st op) (wf_applyOp st op h)
    have hrun : runOps st (op :: ops) = runOps (applyOp st op) ops := rfl
    cases op with
    | create p =>
      have hlen : (applyOp st (Op.create p)).records.length =
          st.records.length + 1 := by
        simp [applyOp, create_summary, crud.post]
      have hnd : numDeletes st (Op.create p :: ops) =
          numDeletes (applyOp st (Op.create p)) ops := by
        simp [numDeletes]
      have hnc : numCreates (Op.create p :: ops) = numCreates ops + 1 := rfl
      rw [hrun, hnd, hnc]
      omega
    | get id =>
      have hnd : numDeletes st (Op.get id :: ops) =
          numDeletes (applyOp st (Op.get id)) ops := by
        simp [numDeletes]
      have hnc : numCreates (Op.get id :: ops) = numCreates ops := rfl
      have hlen : (applyOp st (Op.get id)).records.length =
          st.records.length := rfl
      rw [hrun, hnd, hnc]
      omega
    | getAll =>
      have hnd : numDeletes st (Op.getAll :: ops) =
          numDeletes (applyOp st Op.getAll) ops := by
        simp [numDeletes]
      have hnc : numCreates (Op.getAll :: ops) = numCreates ops := rfl
      have hlen : (applyOp st Op.getAll).records.length =
          st.records.length := rfl
      rw [hrun, hnd, hnc]
      omega
    | update id p =>
      have hlen : (applyOp st (Op.update id p)).records.length =
          st.records.length := by
        by_cases hid : 0 < id
        · have hl : ((crud.put id p st).2).records.length =
              st.records.length := by
            have hcongr := congrArg List.length (put_snd_ids id p st).1
            simpa using hcongr
          simp [applyOp, route_update_summary, hid, update_summary_snd, hl]
        · simp [applyOp, route_update_summary, hid]
      have hnd : numDeletes st (Op.update id p :: ops) =
          numDeletes (applyOp st (Op.update id p)) ops := by
        simp [numDeletes]
      have hnc : numCreates (Op.update id p :: ops) = numCreates ops := rfl
      rw [hrun, hnd, hnc]
      omega
    | delete id =>
      have hnc : numCreates (Op.delete id :: ops) = numCreates ops := rfl
      by_cases hid : 0 < id
      · cases hg : crud.get id st with
        | none =>
          have happ : applyOp st (Op.delete id) = st := by
            simp [applyOp, route_remove_summary, hid, remove_summary,
              remove_summary_gen, hg]
          have hnd : numDeletes st (Op.delete id :: ops) =
              numDeletes (applyOp st (Op.delete id)) ops := by
            simp [numDeletes, hg]
          rw [hrun, hnd, hnc]
          rw [happ] at IH ⊢
          omega
        | some s =>
          have happ : applyOp st (Op.delete id) = (crud.delete id st).2 := by
            simp [applyOp, route_remove_summary, hid, remove_summary,
              remove_summary_gen, hg]
          have hfind : (st.records.find? (fun r => r.id == id)).isSome =
              true := by
            have hg' : st.records.find? (fun r => r.id == id) = some s := hg
            rw [hg']
            rfl
          have hlen : ((crud.delete id st).2).records.length + 1 =
              st.records.length := by
            have hcount := length_filter_ne_id st.records id h.2
            rw [hfind] at hcount
            simpa [crud.delete] using hcount
          have hnd : numDeletes st (Op.delete id :: ops) =
              1 + numDeletes (applyOp st (Op.delete id)) ops := by
            simp [numDeletes, hid, crud.get, hfind]
          rw [hrun, hnd, hnc]
          rw [happ] at IH ⊢
          omega
      · have happ : applyOp st (Op.delete id) = st := by
          simp [applyOp, route_remove_summary, hid]
        have hnd : numDeletes st (Op.delete id :: ops) =
            numDeletes (applyOp st (Op.delete id)) ops := by
          simp [numDeletes, hid]
        rw [hrun, hnd, hnc]
        rw [happ] at IH ⊢
        omega

lemma nextId_applyOp (st : Storage) (op : Op) :
    st.nextId ≤ (applyOp st op).nextId := by
  cases op with
  | create p => simp [applyOp, create_summary, crud.post]
  | get id => exact le_refl _
  | getAll => exact le_refl _
  | update id p =>
    by_cases hid : 0 < id
    · simp [applyOp, route_update_summary, hid, update_summary_snd,
        (put_snd_ids id p st).2]
    · simp [applyOp, route_update_summary, hid]
  | delete id =>
    by_cases hid : 0 < id
    · cases hg : crud.get id st with
      | none =>
        simp [applyOp, route_remove_summary, hid, remove_summary,
          remove_summary_gen, hg]
      | some s =>
        simp [applyOp, route_remove_summary, hid, remove_summary,
          remove_summary_gen, hg, crud.delete]
    · simp [applyOp, route_remove_summary, hid]

lemma nextId_runOps (ops : List Op) (st : Storage) :
    st.nextId ≤ (runOps st ops).nextId := by
  induction ops generalizing st with
  | nil => exact le_refl _
  | cons op ops ih =>
    exact le_trans (nextId_applyOp st op) (ih (applyOp st op))

lemma wf_runOps (ops : List Op) (st : Storage) (h : WF st) :
    WF (runOps st ops) := by
  induction ops generalizing st with
  | nil => exact h
  | cons op ops ih => exact ih (applyOp st op) (wf_applyOp st op h)

lemma assignedIds_lt (ops : List Op) (st : Storage) :
    ∀ i ∈ assignedIds st ops, i < (runOps st ops).nextId := by
  induction ops generalizing st with
  | nil => intro i hi; cases hi
  | cons op ops ih =>
    intro i hi
    have hrun : runOps st (op :: ops) = runOps (applyOp st op) ops := rfl
    rw [hrun]
    rcases List.mem_append.mp hi with hh | ht
    · cases op with
      | create p =>
        simp only [List.mem_singleton] at hh
        subst hh
        have h1 : st.nextId < (applyOp st (Op.create p)).nextId := by
          simp [applyOp, create_summary, crud.post]
        exact lt_of_lt_of_le h1 (nextId_runOps ops _)
      | get id => cases hh
      | getAll => cases hh
      | update id p => cases hh
      | delete id => cases hh
    · exact ih (applyOp st op) i ht

/-- C1: for every payload (valid url, specifier, positive sentence
count) and every storage state reached by serving a trace of API
requests from the empty state, `create_summary` returns a response
whose `url`, `summarizer_specifier` and `sentence_count` equal the
input fields exactly, together with a freshly assigned id that no
stored record carries and that was never assigned to any record by any
earlier create request; the response is exactly that record of four
echoed fields, so it carries no generated summary text. -/
theorem create_summary_echoes_and_fresh_id
    (payload : SummaryPayloadSchema) (tasks0 : List BackgroundTask)
    (ops : List Op) (_hpos : 0 < payload.sentence_count) :
    (create_summary payload tasks0 (runOps initialStorage ops)).1 =
      { url := payload.url, id := (runOps initialStorage ops).nextId,
        summarizer_specifier := payload.summarizer_specifier,
        sentence_count := payload.sentence_count } ∧
    (∀ r ∈ (runOps initialStorage ops).records,
      r.id ≠ (create_summary payload tasks0 (runOps initialStorage ops)).1.id) ∧
    ∀ i ∈ assignedIds initialStorage ops,
      i ≠ (create_summary payload tasks0 (runOps initialStorage ops)).1.id := by
  have hwf : WF (runOps initialStorage ops) :=
    wf_runOps ops initialStorage
      ⟨by simp [initialStorage], by simp [initialStorage]⟩
  have hid : (create_summary payload tasks0 (runOps initialStorage ops)).1.id =
      (runOps initialStorage ops).nextId := rfl
  refine ⟨rfl, ?_, ?_⟩
  · intro r hr hcontra
    have hlt := hwf.1 r hr
    rw [hid] at hcontra
    omega
  · intro i hi hcontra
    have hlt := assignedIds_lt ops initialStorage i hi
    rw [hid] at hcontra
    omega

/-- Witness for C1 at a concrete payload after a one-create trace. -/
theorem create_summary_echoes_and_fresh_id_witness :
    0 < payloadW.sentence_count ∧
    ((create_summary payloadW [] (runOps initialStorage opsW)).1 =
      { url := payloadW.url, id := (runOps initialStorage opsW).nextId,
        summarizer_specifier := payloadW.summarizer_specifier,
        sentence_count := payloadW.sentence_count } ∧
    (∀ r ∈ (runOps initialStorage opsW).records,
      r.id ≠ (create_summary payloadW [] (runOps initialStorage opsW)).1.id) ∧
    ∀ i ∈ assignedIds initialStorage opsW,
      i ≠ (create_summary payloadW [] (runOps initialStorage opsW)).1.id) :=
  ⟨by decide, create_summary_echoes_and_fresh_id payloadW [] opsW (by decide)⟩

/-- C2: for every id, `read_summary` signals Not-Found exactly when no
stored record has that id, and when a record with that id is stored it
returns that full record. -/
theorem read_summary_not_found_iff (id : Int) (st : Storage)
    (hpw : st.records.Pairwise (fun a b => a.id ≠ b.id)) :
    (read_summary id st = .error .summaryNotFound ↔
      ∀ r ∈ st.records, r.id ≠ id) ∧
    ∀ r ∈ st.records, r.id = id → read_summary id st = .ok r := by
  constructor
  · constructor
    · intro h
      rw [← find?_id_eq_none_iff]
      cases hf : st.records.find? (fun r => r.id == id) with
      | none => rfl
      | some r =>
        simp only [read_summary, crud.get, hf] at h
        cases h
    · intro h
      simp only [read_summary, crud.get, (find?_id_eq_none_iff _ _).mpr h]
  · intro r hr hid
    simp only [read_summary, crud.get, find?_id_unique hpw hr hid]

/-- Witness for C2 at the one-record storage. -/
theorem read_summary_not_found_iff_witness :
    stW.records.Pairwise (fun a b => a.id ≠ b.id) ∧
    ((read_summary 1 stW = .error .summaryNotFound ↔
        ∀ r ∈ stW.records, r.id ≠ 1) ∧
      ∀ r ∈ stW.records, r.id = 1 → read_summary 1 stW = .ok r) :=
  ⟨by decide, read_summary_not_found_iff 1 stW (by decide)⟩

/-- C3: deleting a present id returns the record as it was immediately
before removal, and a subsequent Get of the same id on the resulting
storage signals Not-Found. -/
theorem delete_removes_and_returns_predelete (id : Int) (st : Storage)
    (s : SummaryRecord) (h : crud.get id st = some s) :
    (remove_summary id st).1 = .ok s ∧
    read_summary id (remove_summary id st).2 = .error .summaryNotFound := by
  have h1 : remove_summary id st = (.ok s, (crud.delete id st).2) := by
    simp only [remove_summary, remove_summary_gen, h]
  refine ⟨by rw [h1], ?_⟩
  rw [h1]
  have hf : ((crud.delete id st).2).records.find? (fun r => r.id == id)
      = none := by
    apply (find?_id_eq_none_iff _ _).mpr
    intro r hr
    simp only [crud.delete] at hr
    have hpr := (List.mem_filter.mp hr).2
    simpa using hpr
  simp only [read_summary, crud.get, hf]

/-- Witness for C3 at the one-record storage. -/
theorem delete_removes_and_returns_predelete_witness :
    crud.get 1 stW = some recW ∧
    ((remove_summary 1 stW).1 = .ok recW ∧
      read_summary 1 (remove_summary 1 stW).2 = .error .summaryNotFound) :=
  ⟨by decide, delete_removes_and_returns_predelete 1 stW recW (by decide)⟩

/-- C4: updating a present id overwrites both the `url` and `summary`
fields of that record wholesale, keeping `id` and `created_at`, returns
exactly that updated record, and leaves every other record in place. -/
theorem update_overwrites_url_and_summary (id : Int) (st : Storage)
    (r : SummaryRecord) (p : SummaryUpdatePayloadSchema)
    (hpw : st.records.Pairwise (fun a b => a.id ≠ b.id))
    (hmem : r ∈ st.records) (hid : r.id = id) :
    (update_summary id p st).1 =
      .ok { r with url := p.url, summary := p.summary } ∧
    { r with url := p.url, summary := p.summary } ∈
      (update_summary id p st).2.records ∧
    ∀ q ∈ st.records, q.id ≠ id → q ∈ (update_summary id p st).2.records := by
  have hf := find?_id_unique hpw hmem hid
  have h1 : update_summary id p st =
      (.ok { r with url := p.url, summary := p.summary },
       { st with records := st.records.map (fun q =>
           if q.id == id then { r with url := p.url, summary := p.summary }
           else q) }) := by
    simp only [update_summary, crud.put, hf]
  refine ⟨by rw [h1], ?_, ?_⟩
  · rw [h1]
    exact List.mem_map.mpr ⟨r, hmem, by simp [hid]⟩
  · intro q hq hne
    rw [h1]
    refine List.mem_map.mpr ⟨q, hq, ?_⟩
    simp [beq_eq_false_iff_ne.mpr hne]

/-- Witness for C4 at the one-record storage. -/
theorem update_overwrites_url_and_summary_witness :
    (stW.records.Pairwise (fun a b => a.id ≠ b.id) ∧
      { id := 1, url := "https://example.com", summary := "",
        created_at := 1 } ∈ stW.records) ∧
    ((update_summary 1 (SummaryUpdatePayloadSchema.mk "https://new.example" "edited") stW).1 =
      .ok { id := 1, url := "https://new.example", summary := "edited",
            created_at := 1 } ∧
    { id := (1 : Int), url := "https://new.example", summary := "edited",
      created_at := (1 : Int) } ∈
      (update_summary 1 (SummaryUpdatePayloadSchema.mk "https://new.example" "edited") stW).2.records ∧
    ∀ q ∈ stW.records, q.id ≠ 1 →
      q ∈ (update_summary 1 (SummaryUpdatePayloadSchema.mk "https://new.example" "edited") stW).2.records) :=
  ⟨⟨by decide, by decide⟩,
   update_overwrites_url_and_summary 1 stW
     { id := 1, url := "https://example.com", summary := "", created_at := 1 }
     (SummaryUpdatePayloadSchema.mk "https://new.example" "edited")
     (by decide) (by decide) (by decide)⟩

/-- C5: for every id matching no stored record, Get, Update and Delete
each signal Not-Found and return the storage state unchanged. -/
theorem absent_id_no_side_effect (id : Int) (st : Storage)
    (p : SummaryUpdatePayloadSchema)
    (h : ∀ r ∈ st.records, r.id ≠ id) :
    read_summary id st = .error .summaryNotFound ∧
    update_summary id p st = (.error .summaryNotFound, st) ∧
    remove_summary id st = (.error .summaryNotFound, st) := by
  have hf : st.records.find? (fun r => r.id == id) = none :=
    (find?_id_eq_none_iff _ _).mpr h
  refine ⟨?_, ?_, ?_⟩
  · simp only [read_summary, crud.get, hf]
  · simp only [update_summary, crud.put, hf]
  · simp only [remove_summary, remove_summary_gen, crud.get, hf]

/-- Witness for C5 at an absent id of the one-record storage. -/
theorem absent_id_no_side_effect_witness :
    (∀ r ∈ stW.records, r.id ≠ 5) ∧
    (read_summary 5 stW = .error .summaryNotFound ∧
      update_summary 5 (SummaryUpdatePayloadSchema.mk "u" "s") stW =
        (.error .summaryNotFound, stW) ∧
      remove_summary 5 stW = (.error .summaryNotFound, stW)) :=
  ⟨by decide, absent_id_no_side_effect 5 stW _ (by decide)⟩

/-- C6: `create_summary` inserts exactly one new record (with the
assigned id, the payload's url and empty summary text), appends exactly
one `generate_summary` background task carrying the assigned id and the
payload's url, specifier and sentence count, and returns without that
task having been executed (the stored records are the old ones plus the
fresh empty-summary record). -/
theorem create_inserts_and_schedules_one_task
    (payload : SummaryPayloadSchema) (tasks0 : List BackgroundTask)
    (st : Storage) :
    (create_summary payload tasks0 st).2.1 =
      tasks0 ++ [BackgroundTask.generate_summary
        (create_summary payload tasks0 st).1.id payload.url
        payload.summarizer_specifier payload.sentence_count] ∧
    ∃ newRec : SummaryRecord,
      (create_summary payload tasks0 st).2.2.records =
        st.records ++ [newRec] ∧
      newRec.id = (create_summary payload tasks0 st).1.id ∧
      newRec.url = payload.url ∧
      newRec.summary = "" :=
  ⟨rfl, ⟨{ id := st.nextId, url := payload.url, summary := "",
           created_at := st.nextId }, rfl, rfl, rfl, rfl⟩⟩

/-- C7: in every storage state reachable by a sequence of API requests
from the empty state, GetAll returns the stored record list itself — no
pagination, filtering or limit — and the number of records it returns
plus the number of delete requests that removed a record equals the
number of create requests served. -/
theorem read_all_summaries_complete (ops : List Op) :
    read_all_summaries (runOps initialStorage ops) =
      (runOps initialStorage ops).records ∧
    (read_all_summaries (runOps initialStorage ops)).length +
      numDeletes initialStorage ops = numCreates ops := by
  have h0 : WF initialStorage :=
    ⟨by simp [initialStorage], by simp [initialStorage]⟩
  refine ⟨rfl, ?_⟩
  have hmain := runOps_records_length ops initialStorage h0
  simpa [read_all_summaries, crud.get_all, initialStorage] using hmain

/-- C8: a non-positive path id is rejected by the `Path(..., gt=0)`
constraint as a validation error before any handler or persistence call
runs, leaving the storage untouched, and that condition is distinct from
the Not-Found condition: it is surfaced as 422 while Not-Found is 404. -/
theorem nonpositive_id_rejected_as_validation_error (id : Int)
    (st : Storage) (p : SummaryUpdatePayloadSchema) (h : id ≤ 0) :
    route_read_summary id st = .error .validationError ∧
    route_update_summary id p st = (.error .validationError, st) ∧
    route_remove_summary id st = (.error .validationError, st) ∧
    ApiError.validationError ≠ ApiError.summaryNotFound ∧
    ApiError.statusCode .validationError = 422 ∧
    ApiError.statusCode .summaryNotFound = 404 := by
  have hn : ¬ (0 < id) := by omega
  refine ⟨?_, ?_, ?_, by decide, rfl, rfl⟩ <;>
    simp [route_read_summary, route_update_summary, route_remove_summary, hn]

/-- Witness for C8 at id zero on the one-record storage. -/
theorem nonpositive_id_rejected_as_validation_error_witness :
    (0 : Int) ≤ 0 ∧
    (route_read_summary 0 stW = .error .validationError ∧
      route_update_summary 0 (SummaryUpdatePayloadSchema.mk "u" "s") stW =
        (.error .validationError, stW) ∧
      route_remove_summary 0 stW = (.error .validationError, stW) ∧
      ApiError.validationError ≠ ApiError.summaryNotFound ∧
      ApiError.statusCode .validationError = 422 ∧
      ApiError.statusCode .summaryNotFound = 404) :=
  ⟨by decide,
   nonpositive_id_rejected_as_validation_error 0 stW
     (SummaryUpdatePayloadSchema.mk "u" "s") (by decide)⟩

/-- Counterexample to C9: the delete handler's response body is not the
projection to the fields id and url of the pre-delete snapshot.  Two
storage states whose single records agree on `id` and `url` but differ
in `summary` produce distinguishable delete responses: the response is
the full record, summary text and creation time included, because
`remove_summary` returns the looked-up record under the same response
schema as Get. -/
theorem remove_summary_body_not_only_id_url :
    recW.id = recB.id ∧ recW.url = recB.url ∧
    (remove_summary 1 stW).1 = .ok recW ∧
    (remove_summary 1 stB).1 = .ok recB ∧
    recW.summary ≠ recB.summary := by
  refine ⟨rfl, rfl, rfl, rfl, by decide⟩

/-- C9 as amended: for every id present in storage, the response of
`DELETE /summaries/{id}/` is the successful (200) response carrying the
full pre-delete snapshot record, all four fields id, url, summary and
created_at included, not only {id, url}. -/
theorem remove_summary_returns_full_predelete_record (id : Int)
    (st : Storage) (s : SummaryRecord) (h : crud.get id st = some s) :
    ∃ r, (remove_summary id st).1 = Except.ok r ∧
      r.id = s.id ∧ r.url = s.url ∧ r.summary = s.summary ∧
      r.created_at = s.created_at := by
  refine ⟨s, ?_, rfl, rfl, rfl, rfl⟩
  simp only [remove_summary, remove_summary_gen, h]

/-- Witness for the amended C9 at the populated-summary storage. -/
theorem remove_summary_returns_full_predelete_record_witness :
    crud.get 1 stB = some recB ∧
    (∃ r, (remove_summary 1 stB).1 = Except.ok r ∧
      r.id = recB.id ∧ r.url = recB.url ∧ r.summary = recB.summary ∧
      r.created_at = recB.created_at) :=
  ⟨by decide, remove_summary_returns_full_predelete_record 1 stB recB
    (by decide)⟩

/-- C10: for an id whose lookup succeeds, the delete handler's response
is the successful pre-deletion record no matter what delete operation
the persistence collaborator implements and no matter which Bool that
operation reports: the handler discards the Bool returned by the delete
call. -/
theorem remove_summary_ignores_delete_result
    (del : Int → Storage → Bool × Storage) (id : Int) (st : Storage)
    (s : SummaryRecord) (h : crud.get id st = some s) :
    (remove_summary_gen del id st).1 = .ok s := by
  simp only [remove_summary_gen, h]

/-- Witness for C10 with a delete operation that reports failure. -/
theorem remove_summary_ignores_delete_result_witness :
    crud.get 1 stW = some recW ∧
    (remove_summary_gen (fun _ stx => (false, stx)) 1 stW).1 = .ok recW :=
  ⟨by decide,
   remove_summary_ignores_delete_result (fun _ stx => (false, stx)) 1 stW recW
     (by decide)⟩
